import Mathlib

/-
Shallow embedding of `src/feature/FeatureIPSetting.go` (package `feature`).

The Go module watches a XenStore-like key/value control plane for static-IP
configuration requests.  The external store client is embedded as a record of
pure functions (`Client`); Go's `(value, error)` results become
`Except String String`.  Side effects (log lines, store writes, and the call
into the Apply step `ConfigStaticIP`) are reified as an `Event` trace, so that
temporal claims about the watch loop become statements about finite traces.
The Go standard library's `net.ParseCIDR` / `net.ParseIP` are external to the
repository and are embedded as an abstract parameter record (`NetModel`); all
theorems hold for every parser.
-/

namespace FeatureIPSetting

/-- Key constants from the Go `const` block (FeatureIPSetting.go lines 27-40). -/
def advertiseKey : String := "control/feature-static-ip-setting"

def controlKey : String := "xenserver/device/vif"

def token : String := "FeatureIPSetting"

def macSubKey : String := "/static-ip-setting/mac"

def ipenabledSubKey : String := "/static-ip-setting/enabled"

def ipv6enabledSubKey : String := "/static-ip-setting/enabled6"

def errorCodeSubKey : String := "/static-ip-setting/error-code"

def errorMsgSubKey : String := "/static-ip-setting/error-msg"

def addressSubKey : String := "/static-ip-setting/address"

def gatewaySubKey : String := "/static-ip-setting/gateway"

def address6SubKey : String := "/static-ip-setting/address6"

def gateway6SubKey : String := "/static-ip-setting/gateway6"

/-- `type OSType int` with the two constants `OTHER`/`CENTOS` (lines 91-96). -/
inductive OSType
  | OTHER
  | CENTOS
  deriving DecidableEq, Repr

/-- The XenStore client capability consumed by the feature: `Read` and
`Directory` as pure maps from key to Go's `(value, error)` pair.  `Write`,
`Watch` and `WatchEvent` are modelled at the loop level (the write value is
recorded as an event; watch registration and event arrival are inputs). -/
structure Client where
  read : String → Except String String
  directory : String → Except String String

/-- Abstract embedding of the Go standard library parsers used by
`ConfigStaticIP`: `parseCIDR` returns `(ip.String(), ipNet.String())` on
success, `parseIP` returns `gatewayAddress.String()` on success. -/
structure NetModel where
  parseCIDR : String → Option (String × String)
  parseIP : String → Option String

/-- Observable effects of the module.  Log calls carry the data that the Go
format strings interpolate; `applyCall` is an instrumentation marker emitted
at the two call sites of `ConfigStaticIP` (lines 187 and 194); `scanStart`
marks a positive `WatchEvent` opening a scan; `tickWait` marks the blocking
receive on the 4-second ticker that ends every loop iteration (line 201). -/
inductive Event
  | writeKey : String → String → Event
  | logStartChecking : String → Event
  | logMacFailed : String → Event
  | applyCall : String → String → Bool → Event
  | logSetIP : OSType → String → String → Event
  | logParseCIDRFailed : String → Event
  | logAddrReadFailed : String → Event
  | logSetGateway : OSType → String → Event
  | logInvalidGateway : String → Event
  | logGwReadFailed : String → Event
  | logChildrensFailed : String → Event
  | scanStart : Event
  | tickWait : Event
  deriving DecidableEq, Repr

/-- The address key selected at lines 120-125: `vifKey + addressSubKey`,
overwritten with the v6 variant when `isIPv6`. -/
def addrKeyOf (vifKey : String) (isIPv6 : Bool) : String :=
  if isIPv6 then vifKey ++ address6SubKey else vifKey ++ addressSubKey

/-- The gateway key selected at lines 121-125 (`gatewatKey` in the source). -/
def gwKeyOf (vifKey : String) (isIPv6 : Bool) : String :=
  if isIPv6 then vifKey ++ gateway6SubKey else vifKey ++ gatewaySubKey

/-- `ConfigStaticIP` (lines 119-158).  Reads the address key; on success
parses it as CIDR, logging the parsed values (per-OSType message) or the
parse failure; on read failure logs that.  Then, independently, the same for
the gateway key with `net.ParseIP`.  Always returns `nil` (here `none`).
The `mac` parameter is accepted (as in the source) but never used. -/
def ConfigStaticIP (net : NetModel) (c : Client) (vifKey : String) (mac : String)
    (isIPv6 : Bool) (osType : OSType) : List Event × Option String :=
  ((match c.read (addrKeyOf vifKey isIPv6) with
    | Except.ok address =>
      match net.parseCIDR address with
      | some p => [Event.logSetIP osType p.1 p.2]
      | none => [Event.logParseCIDRFailed address]
    | Except.error e => [Event.logAddrReadFailed e]) ++
   (match c.read (gwKeyOf vifKey isIPv6) with
    | Except.ok gateway =>
      match net.parseIP gateway with
      | some g => [Event.logSetGateway osType g]
      | none => [Event.logInvalidGateway gateway]
    | Except.error e => [Event.logGwReadFailed e]) , none)

/-- The single log event produced by the address half of `ConfigStaticIP`
(lines 127-140), as a function of the result of reading the address key. -/
def addrOutcome (net : NetModel) (osType : OSType) (r : Except String String) : Event :=
  match r with
  | Except.ok address =>
    match net.parseCIDR address with
    | some p => Event.logSetIP osType p.1 p.2
    | none => Event.logParseCIDRFailed address
  | Except.error e => Event.logAddrReadFailed e

/-- The single log event produced by the gateway half of `ConfigStaticIP`
(lines 142-156), as a function of the result of reading the gateway key. -/
def gwOutcome (net : NetModel) (osType : OSType) (r : Except String String) : Event :=
  match r with
  | Except.ok gateway =>
    match net.parseIP gateway with
    | some g => Event.logSetGateway osType g
    | none => Event.logInvalidGateway gateway
  | Except.error e => Event.logGwReadFailed e

theorem config_unfold (net : NetModel) (c : Client) (v m : String) (b : Bool) (o : OSType) :
    ConfigStaticIP net c v m b o =
      ([addrOutcome net o (c.read (addrKeyOf v b)),
        gwOutcome net o (c.read (gwKeyOf v b))], none) := by
  cases hr1 : c.read (addrKeyOf v b) with
  | error e =>
    cases hr2 : c.read (gwKeyOf v b) with
    | error e2 => simp [ConfigStaticIP, addrOutcome, gwOutcome, hr1, hr2]
    | ok g =>
      cases hp2 : net.parseIP g <;>
        simp [ConfigStaticIP, addrOutcome, gwOutcome, hr1, hr2, hp2]
  | ok a =>
    cases hp1 : net.parseCIDR a with
    | none =>
      cases hr2 : c.read (gwKeyOf v b) with
      | error e2 => simp [ConfigStaticIP, addrOutcome, gwOutcome, hr1, hr2, hp1]
      | ok g =>
        cases hp2 : net.parseIP g <;>
          simp [ConfigStaticIP, addrOutcome, gwOutcome, hr1, hr2, hp1, hp2]
    | some p =>
      cases hr2 : c.read (gwKeyOf v b) with
      | error e2 => simp [ConfigStaticIP, addrOutcome, gwOutcome, hr1, hr2, hp1]
      | ok g =>
        cases hp2 : net.parseIP g <;>
          simp [ConfigStaticIP, addrOutcome, gwOutcome, hr1, hr2, hp1, hp2]

/-- Embedding of Go's `strings.Split(s, sep)` for a one-character separator,
over the character list of the string: splits at every occurrence of `sep`,
always returning one more piece than there are separators (so `""` yields
`[""]` and a trailing separator yields a trailing empty piece). -/
def goSplit (sep : Char) : List Char → List (List Char)
  | [] => [[]]
  | c :: rest =>
    if c = sep then [] :: goSplit sep rest
    else
      match goSplit sep rest with
      | [] => [[c]]
      | t :: ts => (c :: t) :: ts

/-- The NUL character separating entries of a XenStore directory listing. -/
def nulChar : Char := Char.ofNat 0

/-- Joins tokens with a single separator character between consecutive
tokens (the shape of a raw XenStore directory listing). -/
def sepJoin (sep : Char) : List (List Char) → List Char
  | [] => []
  | [t] => t
  | t :: ts => t ++ sep :: sepJoin sep ts

/-- `GetChildrens` (lines 75-89).  Note the source ignores its `key` argument
and always lists `controlKey`.  On a `Directory` error it logs and returns
the (nil) accumulator, i.e. the empty list; otherwise it splits the raw
listing on NUL, drops empty tokens and prefixes `controlKey + "/"`. -/
def GetChildrens (c : Client) (key : String) : List String :=
  match c.directory controlKey with
  | Except.error _ => []
  | Except.ok raw =>
    ((goSplit nulChar raw.toList).filter (fun t => t.length ≠ 0)).map
      (fun t => controlKey ++ "/" ++ String.mk t)

theorem goSplit_ne_nil (sep : Char) (l : List Char) : goSplit sep l ≠ [] := by
  cases l with
  | nil => simp [goSplit]
  | cons c rest =>
    simp only [goSplit]
    by_cases h : c = sep
    · simp [h]
    · simp only [h, if_false]
      cases goSplit sep rest <;> simp

theorem goSplit_of_not_mem (sep : Char) (l : List Char) (h : sep ∉ l) :
    goSplit sep l = [l] := by
  induction l with
  | nil => rfl
  | cons c rest ih =>
    have hc : ¬ c = sep := fun he => h (he ▸ List.mem_cons_self c rest)
    have hr : sep ∉ rest := fun hm => h (List.mem_cons_of_mem c hm)
    simp only [goSplit, hc, if_false, ih hr]

theorem goSplit_append_sep (sep : Char) (t r : List Char) (h : sep ∉ t) :
    goSplit sep (t ++ sep :: r) = t :: goSplit sep r := by
  induction t with
  | nil => simp [goSplit]
  | cons c t' ih =>
    have hc : ¬ c = sep := fun he => h (he ▸ List.mem_cons_self c t')
    have ht : sep ∉ t' := fun hm => h (List.mem_cons_of_mem c hm)
    simp only [List.cons_append, goSplit, hc, if_false, List.append_eq, ih ht]

theorem goSplit_sepJoin (sep : Char) (tokens : List (List Char))
    (hne : tokens ≠ []) (hnul : ∀ t ∈ tokens, sep ∉ t) :
    goSplit sep (sepJoin sep tokens) = tokens := by
  induction tokens with
  | nil => exact absurd rfl hne
  | cons t ts ih =>
    cases ts with
    | nil =>
      simp only [sepJoin]
      exact goSplit_of_not_mem sep t (hnul t (List.mem_cons_self t []))
    | cons t' ts' =>
      have hstep : sepJoin sep (t :: t' :: ts') = t ++ sep :: sepJoin sep (t' :: ts') := rfl
      rw [hstep, goSplit_append_sep sep t _ (hnul t (List.mem_cons_self t _)),
        ih (by simp) (fun u hu => hnul u (List.mem_cons_of_mem t hu))]

/-- Whether a character is whitespace in the sense of Go's `unicode.IsSpace`
(used by `strings.TrimSpace`): the ASCII space characters, NEL, NBSP, and
the Unicode `White_Space` code points. -/
def goIsSpace (c : Char) : Bool :=
  c == ' ' || c == '\t' || c == '\n' || c == '\x0b' || c == '\x0c' || c == '\r' ||
  c.toNat == 0x85 || c.toNat == 0xa0 || c.toNat == 0x1680 ||
  (0x2000 ≤ c.toNat && c.toNat ≤ 0x200a) ||
  c.toNat == 0x2028 || c.toNat == 0x2029 || c.toNat == 0x202f ||
  c.toNat == 0x205f || c.toNat == 0x3000

/-- Removes from the end of the list every character satisfying `p`. -/
def trimEnd (p : Char → Bool) (l : List Char) : List Char :=
  (l.reverse.dropWhile p).reverse

/-- Embedding of Go's `strings.Trim` family for a predicate cutset: removes
all leading and all trailing characters satisfying `p`. -/
def goTrimBy (p : Char → Bool) (l : List Char) : List Char :=
  trimEnd p (l.dropWhile p)

/-- Go's `strings.TrimSpace`. -/
def goTrimSpace : List Char → List Char :=
  goTrimBy goIsSpace

/-- Go's `strings.Trim(s, "\"")`: removes all leading and trailing
double-quote characters. -/
def goTrimQuotes : List Char → List Char :=
  goTrimBy (fun c => c == '"')

/-- Embedding of `strings.SplitN(line, "=", 2)` given that `line` contains
an `=`: returns the part before the first `=` and the rest after it. -/
def splitAtEq : List Char → List Char × List Char
  | [] => ([], [])
  | c :: rest =>
    if c = '=' then ([], rest)
    else
      let p := splitAtEq rest
      (c :: p.1, p.2)

/-- The scanner loop of `GetCurrentOSType` (lines 105-115), over the list of
lines of the descriptor file: for each line containing `=`, split at the
first `=`, trim whitespace from the key, and trim
whitespace / all surrounding double quotes / whitespace from the value;
return `CENTOS` the first time the key is `os_distro` and the value is
`centos`, else fall through to `OTHER`. -/
def scanDistro : List String → OSType
  | [] => OSType.OTHER
  | line :: rest =>
    if line.toList.contains '=' then
      let parts := splitAtEq line.toList
      let k := goTrimSpace parts.1
      let v := goTrimSpace (goTrimQuotes (goTrimSpace parts.2))
      if k = "os_distro".toList ∧ v = "centos".toList then OSType.CENTOS
      else scanDistro rest
    else scanDistro rest

/-- `GetCurrentOSType` (lines 98-117).  The local descriptor file
`/var/cache/xe-linux-distribution` is embedded as `none` when `os.OpenFile`
fails and `some lines` (the scanned lines) otherwise. -/
def GetCurrentOSType (file : Option (List String)) : OSType :=
  match file with
  | none => OSType.OTHER
  | some lines => scanDistro lines

/-- The per-family enabled key read in the scan loop: `subkey + ipenabledSubKey`
for v4 (line 184) and `subkey + ipv6enabledSubKey` for v6 (line 191). -/
def enabledKeyOf (subkey : String) (isIPv6 : Bool) : String :=
  if isIPv6 then subkey ++ ipv6enabledSubKey else subkey ++ ipenabledSubKey

/-- One family block of the scan loop (lines 184-189 for v4, 191-196 for v6):
read the family's enabled sub-key; only when the read succeeds and the value
is exactly `"1"`, call `ConfigStaticIP` (the call is marked by an `applyCall`
event followed by the callee's own events). -/
def famBranch (net : NetModel) (c : Client) (osType : OSType)
    (subkey mac : String) (isIPv6 : Bool) : List Event :=
  match c.read (enabledKeyOf subkey isIPv6) with
  | Except.ok enabledVal =>
    if enabledVal = "1" then
      Event.applyCall subkey mac isIPv6 :: (ConfigStaticIP net c subkey mac isIPv6 osType).1
    else []
  | Except.error _ => []

/-- The body of the `for _, subkey := range childrens` loop (lines 175-198):
log the start, read the MAC sub-key, on failure log and `continue`; otherwise
evaluate the v4 family block then the v6 family block. -/
def processVif (net : NetModel) (c : Client) (osType : OSType) (subkey : String) :
    List Event :=
  Event.logStartChecking subkey ::
  (match c.read (subkey ++ macSubKey) with
   | Except.error _ => [Event.logMacFailed (subkey ++ macSubKey)]
   | Except.ok mac =>
     famBranch net c osType subkey mac false ++ famBranch net c osType subkey mac true)

/-- `Enable` (lines 66-73): writes `"1"` to the advertise key when the
feature's `Enabled` flag is true, `"0"` otherwise; the write result is
discarded. -/
def Enable (enabled : Bool) : List Event :=
  if enabled then [Event.writeKey advertiseKey "1"]
  else [Event.writeKey advertiseKey "0"]

/-- The scan performed on a positive watch event (lines 174-198): discover
the children (the `Directory` failure log from line 79 is emitted here), then
process each child sequentially in listing order. -/
def scanEvents (net : NetModel) (c : Client) (osType : OSType) : List Event :=
  (match c.directory controlKey with
   | Except.error e => [Event.logChildrensFailed e]
   | Except.ok _ => []) ++
  (GetChildrens c controlKey).flatMap (processVif net c osType)

/-- Input to one iteration of the watch loop: the store contents visible in
that iteration and whether `WatchEvent(controlKey)` returned `ok = true`. -/
structure IterInput where
  client : Client
  watchFired : Bool

/-- The ticker period from `time.Tick(4 * time.Second)` (line 170), in
seconds. -/
def tickPeriodSeconds : Nat := 4

/-- One iteration of the `for` loop in the goroutine (lines 171-204):
`Enable` unconditionally; if `WatchEvent` fired, run the scan; then block on
the ticker (`tickWait`) before the next iteration. -/
def loopIter (net : NetModel) (enabled : Bool) (osType : OSType) (inp : IterInput) :
    List Event :=
  Enable enabled ++
  (if inp.watchFired then Event.scanStart :: scanEvents net inp.client osType else []) ++
  [Event.tickWait]

/-- The event trace of the goroutine over a finite schedule of iteration
inputs (the loop itself never terminates; a schedule observes a prefix). -/
def loopTrace (net : NetModel) (enabled : Bool) (osType : OSType) :
    List IterInput → List Event
  | [] => []
  | inp :: rest => loopIter net enabled osType inp ++ loopTrace net enabled osType rest

/-- `Run` (lines 160-207): registers the watch on `controlKey` with `token`;
`watchResult` is the error returned by `Client.Watch` (`none` = nil).  On
failure the error is logged and returned and the goroutine is never started
(empty trace).  On success `Run` returns nil and the goroutine computes the
OS type once from the descriptor file and then loops; its behaviour is the
trace over the given schedule. -/
def Run (net : NetModel) (enabled : Bool) (distroFile : Option (List String))
    (watchResult : Option String) (sched : List IterInput) :
    Option String × List Event :=
  match watchResult with
  | some e => (some e, [])
  | none => (none, loopTrace net enabled (GetCurrentOSType distroFile) sched)

/-- Definition following the spec's words for the OS classifier value
processing: "trims surrounding whitespace and one layer of double-quote
characters from the value".  One layer means: after whitespace trimming,
remove one leading double quote if present and one trailing double quote if
present. -/
def trimOneQuoteLayer (l : List Char) : List Char :=
  let l1 := if l.head? = some '"' then l.tail else l
  if l1.getLast? = some '"' then l1.dropLast else l1

/-- The scanner loop as the spec describes it, with the one-layer quote
trimming of `trimOneQuoteLayer` in place of the source's
whitespace / all-quotes / whitespace pipeline. -/
def specScanDistro : List String → OSType
  | [] => OSType.OTHER
  | line :: rest =>
    if line.toList.contains '=' then
      let parts := splitAtEq line.toList
      let k := goTrimSpace parts.1
      let v := trimOneQuoteLayer (goTrimSpace parts.2)
      if k = "os_distro".toList ∧ v = "centos".toList then OSType.CENTOS
      else specScanDistro rest
    else specScanDistro rest

/-- The OS classifier as described by the spec's words (one-layer quote
trimming), to be compared against the source's `GetCurrentOSType`. -/
def specOSClassify (file : Option (List String)) : OSType :=
  match file with
  | none => OSType.OTHER
  | some lines => specScanDistro lines

/-- Whether one descriptor line matches `os_distro` = `centos` under the
source's trimming pipeline (whitespace, then all surrounding double quotes,
then whitespace again). -/
def distroLineCentos (line : String) : Bool :=
  if line.toList.contains '=' then
    if goTrimSpace (splitAtEq line.toList).1 = "os_distro".toList ∧
       goTrimSpace (goTrimQuotes (goTrimSpace (splitAtEq line.toList).2)) = "centos".toList
    then true else false
  else false

theorem scanDistro_cons (line : String) (rest : List String) :
    scanDistro (line :: rest) =
      if distroLineCentos line = true then OSType.CENTOS else scanDistro rest := by
  simp only [scanDistro, distroLineCentos]
  split_ifs <;> simp_all

theorem scanDistro_centos_iff (lines : List String) :
    scanDistro lines = OSType.CENTOS ↔ ∃ line ∈ lines, distroLineCentos line = true := by
  induction lines with
  | nil => simp [scanDistro]
  | cons line rest ih =>
    rw [scanDistro_cons]
    by_cases hl : distroLineCentos line = true
    · rw [if_pos hl]
      exact ⟨fun _ => ⟨line, List.mem_cons_self line rest, hl⟩, fun _ => rfl⟩
    · rw [if_neg (by simp [hl])]
      rw [ih]
      constructor
      · intro h
        rcases h with ⟨l, hmem, hmatch⟩
        exact ⟨l, List.mem_cons_of_mem line hmem, hmatch⟩
      · intro h
        rcases h with ⟨l, hmem, hmatch⟩
        rcases List.mem_cons.mp hmem with rfl | hmem
        · exact absurd hmatch hl
        · exact ⟨l, hmem, hmatch⟩

/-- Events that the scan body (discovery plus per-interface evaluation) can
produce: everything except store writes and the loop markers. -/
def isScanBody : Event → Bool
  | Event.writeKey _ _ => false
  | Event.scanStart => false
  | Event.tickWait => false
  | _ => true

/-- Whether an event is a write to the advertise key. -/
def isAdvWrite : Event → Bool
  | Event.writeKey k _ => k == advertiseKey
  | _ => false

/-- Whether an event is an invocation of the Apply step. -/
def isApplyEvent : Event → Bool
  | Event.applyCall _ _ _ => true
  | _ => false

theorem isScanBody_addrOutcome (net : NetModel) (o : OSType) (r : Except String String) :
    isScanBody (addrOutcome net o r) = true := by
  cases r with
  | error e => rfl
  | ok a => cases hp : net.parseCIDR a <;> simp [addrOutcome, hp, isScanBody]

theorem isScanBody_gwOutcome (net : NetModel) (o : OSType) (r : Except String String) :
    isScanBody (gwOutcome net o r) = true := by
  cases r with
  | error e => rfl
  | ok g => cases hp : net.parseIP g <;> simp [gwOutcome, hp, isScanBody]

theorem isApply_addrOutcome (net : NetModel) (o : OSType) (r : Except String String) :
    isApplyEvent (addrOutcome net o r) = false := by
  cases r with
  | error e => rfl
  | ok a => cases hp : net.parseCIDR a <;> simp [addrOutcome, hp, isApplyEvent]

theorem isApply_gwOutcome (net : NetModel) (o : OSType) (r : Except String String) :
    isApplyEvent (gwOutcome net o r) = false := by
  cases r with
  | error e => rfl
  | ok g => cases hp : net.parseIP g <;> simp [gwOutcome, hp, isApplyEvent]

theorem isScanBody_of_mem_config (net : NetModel) (c : Client) (v m : String)
    (b : Bool) (o : OSType) (e : Event) (h : e ∈ (ConfigStaticIP net c v m b o).1) :
    isScanBody e = true := by
  rw [config_unfold] at h
  rcases List.mem_cons.mp h with rfl | h
  · exact isScanBody_addrOutcome net o _
  · rcases List.mem_cons.mp h with rfl | h
    · exact isScanBody_gwOutcome net o _
    · exact absurd h (List.not_mem_nil e)

theorem isScanBody_of_mem_famBranch (net : NetModel) (c : Client) (o : OSType)
    (s m : String) (b : Bool) (e : Event) (h : e ∈ famBranch net c o s m b) :
    isScanBody e = true := by
  revert h
  unfold famBranch
  cases hr : c.read (enabledKeyOf s b) with
  | error err => simp
  | ok val =>
    by_cases hv : val = "1"
    · simp only [hv, if_pos]
      intro h
      rcases List.mem_cons.mp h with rfl | h
      · rfl
      · exact isScanBody_of_mem_config net c s m b o e h
    · simp [hv]

theorem isScanBody_of_mem_processVif (net : NetModel) (c : Client) (o : OSType)
    (s : String) (e : Event) (h : e ∈ processVif net c o s) :
    isScanBody e = true := by
  revert h
  unfold processVif
  intro h
  rcases List.mem_cons.mp h with rfl | h
  · rfl
  · revert h
    cases hr : c.read (s ++ macSubKey) with
    | error err =>
      intro h
      rcases List.mem_cons.mp h with rfl | h
      · rfl
      · exact absurd h (List.not_mem_nil e)
    | ok mac =>
      intro h
      rcases List.mem_append.mp h with h | h
      · exact isScanBody_of_mem_famBranch net c o s mac false e h
      · exact isScanBody_of_mem_famBranch net c o s mac true e h

theorem isScanBody_of_mem_scanEvents (net : NetModel) (c : Client) (o : OSType)
    (e : Event) (h : e ∈ scanEvents net c o) : isScanBody e = true := by
  revert h
  unfold scanEvents
  intro h
  rcases List.mem_append.mp h with h | h
  · revert h
    cases hd : c.directory controlKey with
    | error err =>
      intro h
      rcases List.mem_cons.mp h with rfl | h
      · rfl
      · exact absurd h (List.not_mem_nil e)
    | ok raw => simp
  · rcases List.mem_flatMap.mp h with ⟨s, _, hmem⟩
    exact isScanBody_of_mem_processVif net c o s e hmem

theorem scanBody_not_adv (e : Event) (h : isScanBody e = true) : isAdvWrite e = false := by
  cases e <;> simp_all [isScanBody, isAdvWrite]

theorem scanBody_ne_scanStart (e : Event) (h : isScanBody e = true) :
    e ≠ Event.scanStart := by
  intro he
  subst he
  exact absurd h (by simp [isScanBody])

theorem scanBody_ne_tickWait (e : Event) (h : isScanBody e = true) :
    e ≠ Event.tickWait := by
  intro he
  subst he
  exact absurd h (by simp [isScanBody])

/-- Claim C2: for every raw directory listing on the control root made of
NUL-separated tokens, discovery returns exactly the non-empty tokens, in
listing order, each equal to the control root concatenated with "/" and the
token; if the list-children call fails, it returns an empty sequence. -/
theorem getChildrens_spec (c : Client) (key : String) (tokens : List (List Char))
    (hnul : ∀ t ∈ tokens, nulChar ∉ t) :
    (c.directory controlKey = Except.ok (String.mk (sepJoin nulChar tokens)) →
      GetChildrens c key =
        (tokens.filter (fun t => t.length ≠ 0)).map
          (fun t => controlKey ++ "/" ++ String.mk t)) ∧
    (∀ e, c.directory controlKey = Except.error e → GetChildrens c key = []) := by
  constructor
  · intro hdir
    simp only [GetChildrens, hdir]
    have hlist : (String.mk (sepJoin nulChar tokens)).toList = sepJoin nulChar tokens := rfl
    rw [hlist]
    cases tokens with
    | nil => rfl
    | cons t ts =>
      rw [goSplit_sepJoin nulChar (t :: ts) (by simp) hnul]
  · intro e hdir
    simp only [GetChildrens, hdir]

/-- Witness client for C2: the control root lists `eth0`, an empty token,
and `eth1`. -/
def childClient : Client :=
  { read := fun _ => Except.error "ENOENT",
    directory := fun _ =>
      Except.ok (String.mk (sepJoin nulChar [['e','t','h','0'], [], ['e','t','h','1']])) }

theorem getChildrens_spec_witness :
    GetChildrens childClient controlKey =
      ["xenserver/device/vif/eth0", "xenserver/device/vif/eth1"] := by
  have h := (getChildrens_spec childClient controlKey
      [['e','t','h','0'], [], ['e','t','h','1']] (by decide)).1 rfl
  rw [h]
  decide

/-- Claim C4, counterexample: on the descriptor line
`os_distro="" centos ""` the source classifier (which trims whitespace, then
all surrounding double quotes, then whitespace again) answers CENTOS, while
the classifier described by the claim (trim surrounding whitespace and one
layer of double quotes, then compare to exactly "centos") answers OTHER. -/
theorem osClassify_one_layer_counterexample :
    GetCurrentOSType (some ["os_distro=\"\" centos \"\""]) = OSType.CENTOS ∧
    specOSClassify (some ["os_distro=\"\" centos \"\""]) = OSType.OTHER := by
  constructor <;> decide

/-- Claim C4 as amended: the classifier returns OTHER when the descriptor
file cannot be opened, never fails the caller (it is total and only ever
returns CENTOS or OTHER), and returns CENTOS exactly when some line contains
an "=", its key (whitespace-trimmed prefix before the first "=") is
`os_distro`, and its value after trimming whitespace, then all surrounding
double-quote characters, then whitespace again, is exactly `centos`. -/
theorem getCurrentOSType_spec :
    GetCurrentOSType none = OSType.OTHER ∧
    (∀ file, GetCurrentOSType file = OSType.CENTOS ∨ GetCurrentOSType file = OSType.OTHER) ∧
    (∀ lines, GetCurrentOSType (some lines) = OSType.CENTOS ↔
      ∃ line ∈ lines, distroLineCentos line = true) := by
  refine ⟨rfl, ?_, ?_⟩
  · intro file
    cases hq : GetCurrentOSType file with
    | OTHER => exact Or.inr rfl
    | CENTOS => exact Or.inl rfl
  · intro lines
    exact scanDistro_centos_iff lines

/-- Claim C5: within one Apply step, address and gateway are read, validated
and reported independently.  The output is always exactly one address event
(a function of the address read and CIDR parse alone) followed by one gateway
event (a function of the gateway read and IP parse alone), with a nil error;
an invalid value for either field yields the diagnostic event for that field
only, and never a configuration (`logSetIP`/`logSetGateway`) event. -/
theorem configStaticIP_independent (net : NetModel) (c : Client) (vifKey mac : String)
    (isIPv6 : Bool) (osType : OSType) :
    ConfigStaticIP net c vifKey mac isIPv6 osType =
      ([addrOutcome net osType (c.read (addrKeyOf vifKey isIPv6)),
        gwOutcome net osType (c.read (gwKeyOf vifKey isIPv6))], none) ∧
    (∀ address, net.parseCIDR address = none →
      addrOutcome net osType (Except.ok address) = Event.logParseCIDRFailed address) ∧
    (∀ gw, net.parseIP gw = none →
      gwOutcome net osType (Except.ok gw) = Event.logInvalidGateway gw) := by
  refine ⟨config_unfold net c vifKey mac isIPv6 osType, ?_, ?_⟩
  · intro address hp
    simp [addrOutcome, hp]
  · intro gw hp
    simp [gwOutcome, hp]

/-- A store whose every read fails, and parsers that reject everything:
used to instantiate hypothesis-bearing theorems at concrete inputs. -/
def noneNet : NetModel := { parseCIDR := fun _ => none, parseIP := fun _ => none }

theorem configStaticIP_independent_witness :
    ConfigStaticIP noneNet childClient "xenserver/device/vif/0" "m" false OSType.OTHER =
      ([Event.logAddrReadFailed "ENOENT", Event.logGwReadFailed "ENOENT"], none) ∧
    addrOutcome noneNet OSType.OTHER (Except.ok "not-an-ip") =
      Event.logParseCIDRFailed "not-an-ip" ∧
    gwOutcome noneNet OSType.OTHER (Except.ok "bad") = Event.logInvalidGateway "bad" := by
  obtain ⟨h1, h2, h3⟩ :=
    configStaticIP_independent noneNet childClient "xenserver/device/vif/0" "m" false OSType.OTHER
  exact ⟨by rw [h1]; rfl, h2 "not-an-ip" rfl, h3 "bad" rfl⟩

/-- Claim C9: the behaviour of the Apply step is independent of its `mac`
parameter: with the same parsers, store, vifKey, family and OS type, two runs
differing only in `mac` produce identical events and identical results. -/
theorem configStaticIP_mac_irrelevant (net : NetModel) (c : Client) (vifKey : String)
    (mac1 mac2 : String) (isIPv6 : Bool) (osType : OSType) :
    ConfigStaticIP net c vifKey mac1 isIPv6 osType =
      ConfigStaticIP net c vifKey mac2 isIPv6 osType := rfl

/-- Claim C10: `ConfigStaticIP` always returns nil, for every parser, store
state, key, mac, family and OS type. -/
theorem configStaticIP_returns_nil (net : NetModel) (c : Client) (vifKey mac : String)
    (isIPv6 : Bool) (osType : OSType) :
    (ConfigStaticIP net c vifKey mac isIPv6 osType).2 = none := rfl

theorem isApply_of_mem_config (net : NetModel) (c : Client) (v m : String)
    (b : Bool) (o : OSType) (e : Event) (h : e ∈ (ConfigStaticIP net c v m b o).1) :
    isApplyEvent e = false := by
  rw [config_unfold] at h
  rcases List.mem_cons.mp h with rfl | h
  · exact isApply_addrOutcome net o _
  · rcases List.mem_cons.mp h with rfl | h
    · exact isApply_gwOutcome net o _
    · exact absurd h (List.not_mem_nil e)

theorem applyCall_mem_famBranch_iff (net : NetModel) (c : Client) (o : OSType)
    (s m : String) (b : Bool) (s' m' : String) (b' : Bool) :
    (Event.applyCall s' m' b' ∈ famBranch net c o s m b) ↔
      (s' = s ∧ m' = m ∧ b' = b ∧ c.read (enabledKeyOf s b) = Except.ok "1") := by
  unfold famBranch
  cases hr : c.read (enabledKeyOf s b) with
  | error err => simp
  | ok val =>
    by_cases hv : val = "1"
    · subst hv
      constructor
      · intro h
        have h2 : Event.applyCall s' m' b' ∈
            Event.applyCall s m b :: (ConfigStaticIP net c s m b o).1 := by
          simpa using h
        rcases List.mem_cons.mp h2 with he | hin
        · have h3 := Event.applyCall.inj he
          exact ⟨h3.1, h3.2.1, h3.2.2, rfl⟩
        · have h4 := isApply_of_mem_config net c s m b o _ hin
          exact absurd h4 (by simp [isApplyEvent])
      · rintro ⟨hs, hm, hb, h1⟩
        subst hs
        subst hm
        subst hb
        simp
    · constructor
      · intro h
        simp [hv] at h
      · rintro ⟨hs, hm, hb, h1⟩
        exact absurd (Except.ok.inj h1) hv

/-- Claim C1: for an interface whose MAC read succeeds, and for each family,
the Apply step is invoked for that family exactly when the read of that
family's enabled sub-key succeeds with the value exactly "1"; any other
value or a read error means Apply is not invoked for that family. -/
theorem apply_iff_enabled (net : NetModel) (c : Client) (osType : OSType)
    (subkey mac : String) (hmac : c.read (subkey ++ macSubKey) = Except.ok mac) :
    ((Event.applyCall subkey mac false ∈ processVif net c osType subkey) ↔
      c.read (subkey ++ ipenabledSubKey) = Except.ok "1") ∧
    ((Event.applyCall subkey mac true ∈ processVif net c osType subkey) ↔
      c.read (subkey ++ ipv6enabledSubKey) = Except.ok "1") := by
  constructor
  · simp only [processVif, hmac, List.mem_cons, List.mem_append,
      applyCall_mem_famBranch_iff, enabledKeyOf]
    simp
  · simp only [processVif, hmac, List.mem_cons, List.mem_append,
      applyCall_mem_famBranch_iff, enabledKeyOf]
    simp

/-- Witness client for C1 and C6: interface `xenserver/device/vif/1` has a
MAC, v4 disabled with value "0", v6 enabled with value "1", and no address
or gateway keys. -/
def v6Client : Client :=
  { read := fun k =>
      if k = "xenserver/device/vif/1" ++ macSubKey then Except.ok "de:ad:be:ef:00:01"
      else if k = "xenserver/device/vif/1" ++ ipenabledSubKey then Except.ok "0"
      else if k = "xenserver/device/vif/1" ++ ipv6enabledSubKey then Except.ok "1"
      else Except.error "ENOENT",
    directory := fun _ => Except.error "ENOENT" }

theorem apply_iff_enabled_witness :
    ((Event.applyCall "xenserver/device/vif/1" "de:ad:be:ef:00:01" false ∈
        processVif noneNet v6Client OSType.OTHER "xenserver/device/vif/1") ↔
      v6Client.read ("xenserver/device/vif/1" ++ ipenabledSubKey) = Except.ok "1") ∧
    ((Event.applyCall "xenserver/device/vif/1" "de:ad:be:ef:00:01" true ∈
        processVif noneNet v6Client OSType.OTHER "xenserver/device/vif/1") ↔
      v6Client.read ("xenserver/device/vif/1" ++ ipv6enabledSubKey) = Except.ok "1") :=
  apply_iff_enabled noneNet v6Client OSType.OTHER "xenserver/device/vif/1"
    "de:ad:be:ef:00:01" rfl

theorem filter_apply_config_nil (net : NetModel) (c : Client) (v m : String)
    (b : Bool) (o : OSType) :
    ((ConfigStaticIP net c v m b o).1).filter isApplyEvent = [] := by
  rw [config_unfold]
  simp [List.filter_cons, isApply_addrOutcome, isApply_gwOutcome]

/-- Claim C6: v4 and v6 evaluation of one interface are independent: when the
MAC read succeeds, the v4 enabled sub-key is not "1" (other value or read
error) and the v6 enabled sub-key reads "1", the scan of that interface makes
exactly one Apply invocation, for v6, followed by the v6 Apply step's own
events (which by definition read the address6/gateway6 sub-keys). -/
theorem v6_only_apply (net : NetModel) (c : Client) (osType : OSType)
    (subkey mac : String)
    (hmac : c.read (subkey ++ macSubKey) = Except.ok mac)
    (hv4 : c.read (subkey ++ ipenabledSubKey) ≠ Except.ok "1")
    (hv6 : c.read (subkey ++ ipv6enabledSubKey) = Except.ok "1") :
    (processVif net c osType subkey).filter isApplyEvent =
      [Event.applyCall subkey mac true] ∧
    processVif net c osType subkey =
      Event.logStartChecking subkey :: Event.applyCall subkey mac true ::
        (ConfigStaticIP net c subkey mac true osType).1 := by
  have hfb4 : famBranch net c osType subkey mac false = [] := by
    unfold famBranch
    cases hr : c.read (enabledKeyOf subkey false) with
    | error err => rfl
    | ok val =>
      by_cases hval : val = "1"
      · subst hval
        exact absurd hr hv4
      · simp [hval]
  have hfb6 : famBranch net c osType subkey mac true =
      Event.applyCall subkey mac true :: (ConfigStaticIP net c subkey mac true osType).1 := by
    unfold famBranch
    have h6 : c.read (enabledKeyOf subkey true) = Except.ok "1" := hv6
    rw [h6]
    simp
  have hstruct : processVif net c osType subkey =
      Event.logStartChecking subkey :: Event.applyCall subkey mac true ::
        (ConfigStaticIP net c subkey mac true osType).1 := by
    simp only [processVif, hmac, hfb4, hfb6, List.nil_append]
  refine ⟨?_, hstruct⟩
  rw [hstruct]
  simp only [List.filter_cons, filter_apply_config_nil]
  simp [isApplyEvent]

theorem v6_only_apply_witness :
    (processVif noneNet v6Client OSType.OTHER "xenserver/device/vif/1").filter
        isApplyEvent =
      [Event.applyCall "xenserver/device/vif/1" "de:ad:be:ef:00:01" true] :=
  (v6_only_apply noneNet v6Client OSType.OTHER "xenserver/device/vif/1"
    "de:ad:be:ef:00:01" rfl
    (fun h => absurd (Except.ok.inj h) (by decide)) rfl).1

/-- Claim C7: `Run` returns exactly the watch-registration result: a non-nil
error exactly when registration failed, in which case the loop is never
entered (empty trace); on success it returns nil and the background loop's
behaviour is the loop trace (computed with the OS type classified once from
the descriptor file). -/
theorem run_fails_iff_watch (net : NetModel) (enabled : Bool)
    (file : Option (List String)) (w : Option String) (sched : List IterInput) :
    (Run net enabled file w sched).1 = w ∧
    (∀ e, w = some e → Run net enabled file w sched = (some e, [])) ∧
    (w = none →
      (Run net enabled file w sched).2 =
        loopTrace net enabled (GetCurrentOSType file) sched) := by
  refine ⟨?_, ?_, ?_⟩
  · cases w <;> rfl
  · intro e he
    subst he
    rfl
  · intro h
    subst h
    rfl

theorem run_fails_iff_watch_witness :
    Run noneNet true none (some "EIO") [] = (some "EIO", []) :=
  (run_fails_iff_watch noneNet true none (some "EIO") []).2.1 "EIO" rfl

theorem filter_adv_scanEvents_nil (net : NetModel) (c : Client) (o : OSType) :
    (scanEvents net c o).filter isAdvWrite = [] := by
  rw [List.filter_eq_nil_iff]
  intro a ha
  simp [scanBody_not_adv a (isScanBody_of_mem_scanEvents net c o a ha)]

/-- Claim C8: on every loop iteration, regardless of the store contents and
of whether a watch event fired, the advertise key is written exactly once,
with the verbatim literal "1" when `Enabled` is true and "0" when it is
false; over any schedule the trace has exactly one advertise write per
iteration. -/
theorem advertise_every_iteration (net : NetModel) (enabled : Bool) (osType : OSType) :
    (∀ inp : IterInput,
      (loopIter net enabled osType inp).filter isAdvWrite =
        [Event.writeKey advertiseKey (if enabled then "1" else "0")]) ∧
    (∀ sched : List IterInput,
      ((loopTrace net enabled osType sched).filter isAdvWrite).length = sched.length) := by
  have hiter : ∀ inp : IterInput,
      (loopIter net enabled osType inp).filter isAdvWrite =
        [Event.writeKey advertiseKey (if enabled then "1" else "0")] := by
    intro inp
    unfold loopIter
    rw [List.filter_append, List.filter_append]
    have h1 : (Enable enabled).filter isAdvWrite =
        [Event.writeKey advertiseKey (if enabled then "1" else "0")] := by
      cases enabled <;> simp [Enable, isAdvWrite]
    have h2 : (if inp.watchFired then
        Event.scanStart :: scanEvents net inp.client osType else []).filter isAdvWrite
        = [] := by
      cases hw : inp.watchFired
      · simp
      · simp only [if_pos]
        rw [List.filter_cons]
        simp [isAdvWrite, filter_adv_scanEvents_nil]
    have h3 : [Event.tickWait].filter isAdvWrite = [] := rfl
    rw [h1, h2, h3]
    simp
  refine ⟨hiter, ?_⟩
  intro sched
  induction sched with
  | nil => rfl
  | cons inp rest ih =>
    have : loopTrace net enabled osType (inp :: rest) =
        loopIter net enabled osType inp ++ loopTrace net enabled osType rest := rfl
    rw [this, List.filter_append, hiter inp]
    simp [ih]

theorem count_scanStart_scanEvents (net : NetModel) (c : Client) (o : OSType) :
    (scanEvents net c o).count Event.scanStart = 0 := by
  rw [List.count_eq_zero]
  intro hmem
  exact scanBody_ne_scanStart _ (isScanBody_of_mem_scanEvents net c o _ hmem) rfl

theorem count_tickWait_scanEvents (net : NetModel) (c : Client) (o : OSType) :
    (scanEvents net c o).count Event.tickWait = 0 := by
  rw [List.count_eq_zero]
  intro hmem
  exact scanBody_ne_tickWait _ (isScanBody_of_mem_scanEvents net c o _ hmem) rfl

theorem count_scanStart_iter_le (net : NetModel) (enabled : Bool) (osType : OSType)
    (inp : IterInput) :
    (loopIter net enabled osType inp).count Event.scanStart ≤ 1 := by
  unfold loopIter
  rw [List.count_append, List.count_append]
  have h1 : (Enable enabled).count Event.scanStart = 0 := by
    cases enabled <;> simp [Enable]
  have h3 : [Event.tickWait].count Event.scanStart = 0 := by simp
  rw [h1, h3]
  cases hw : inp.watchFired
  · simp
  · simp only [if_pos, List.count_cons, count_scanStart_scanEvents]
    simp

theorem count_tickWait_iter (net : NetModel) (enabled : Bool) (osType : OSType)
    (inp : IterInput) :
    (loopIter net enabled osType inp).count Event.tickWait = 1 := by
  unfold loopIter
  rw [List.count_append, List.count_append]
  have h1 : (Enable enabled).count Event.tickWait = 0 := by
    cases enabled <;> simp [Enable]
  have h2 : (if inp.watchFired then
      Event.scanStart :: scanEvents net inp.client osType else []).count Event.tickWait
      = 0 := by
    cases hw : inp.watchFired
    · simp
    · simp only [if_pos, List.count_cons, count_tickWait_scanEvents]
      simp
  have h3 : [Event.tickWait].count Event.tickWait = 1 := by simp
  rw [h1, h2, h3]

/-- Claim C3: the debounce structure of the loop.  The ticker period is the
fixed 4 seconds; every iteration's events end with the single blocking tick
wait (which gates re-entry into Advertise/AwaitEvent); and along any trace
prefix the number of scans that have started never exceeds the number of
completed tick waits plus one — so a burst of change notifications yields at
most one scan per tick period. -/
theorem debounce_tick (net : NetModel) (enabled : Bool) (osType : OSType) :
    tickPeriodSeconds = 4 ∧
    (∀ inp : IterInput, ∃ pre,
      loopIter net enabled osType inp = pre ++ [Event.tickWait] ∧
      Event.tickWait ∉ pre) ∧
    (∀ sched : List IterInput, ∀ n : Nat,
      ((loopTrace net enabled osType sched).take n).count Event.scanStart ≤
        ((loopTrace net enabled osType sched).take n).count Event.tickWait + 1) := by
  refine ⟨rfl, ?_, ?_⟩
  · intro inp
    refine ⟨Enable enabled ++
      (if inp.watchFired then Event.scanStart :: scanEvents net inp.client osType
       else []), ?_, ?_⟩
    · unfold loopIter
      rw [List.append_assoc]
    · intro hmem
      rcases List.mem_append.mp hmem with h | h
      · cases enabled <;> simp [Enable] at h
      · cases hw : inp.watchFired
        · rw [hw] at h
          simp at h
        · rw [hw] at h
          simp only [if_pos] at h
          rcases List.mem_cons.mp h with he | h
          · exact absurd he (by simp)
          · exact scanBody_ne_tickWait _
              (isScanBody_of_mem_scanEvents net inp.client osType _ h) rfl
  · intro sched
    induction sched with
    | nil =>
      intro n
      simp [loopTrace]
    | cons inp rest ih =>
      intro n
      have hsplit : loopTrace net enabled osType (inp :: rest) =
          loopIter net enabled osType inp ++ loopTrace net enabled osType rest := rfl
      rw [hsplit, List.take_append_eq_append_take, List.count_append, List.count_append]
      by_cases hn : n ≤ (loopIter net enabled osType inp).length
      · have hz : n - (loopIter net enabled osType inp).length = 0 :=
          Nat.sub_eq_zero_of_le hn
        rw [hz]
        simp only [List.take_zero, List.count_nil, Nat.add_zero]
        have hs : (List.take n (loopIter net enabled osType inp)).count Event.scanStart ≤ 1 :=
          le_trans ((List.take_sublist n _).count_le Event.scanStart)
            (count_scanStart_iter_le net enabled osType inp)
        omega
      · have hlen : (loopIter net enabled osType inp).length ≤ n := le_of_not_le hn
        rw [List.take_of_length_le hlen]
        have hs : (loopIter net enabled osType inp).count Event.scanStart ≤ 1 :=
          count_scanStart_iter_le net enabled osType inp
        have ht : (loopIter net enabled osType inp).count Event.tickWait = 1 :=
          count_tickWait_iter net enabled osType inp
        have hr := ih (n - (loopIter net enabled osType inp).length)
        omega

end FeatureIPSetting
